import Mathlib

/-!
# Verification of the tui.tree `Draggable` feature

Shallow embedding of `src/js/features/draggable.js`: the drag-and-drop
interaction core of the tui.tree widget.  Pure geometric helpers
(`_isContain`, `_getBoundaryType`) and the drop resolver
(`_getTargetNodeId`, `_getIndexToInsert`, the decision part of
`_onMouseup`) become Lean functions; the mutable fields of the
`Draggable` instance become an explicit `DragState` record threaded
through the event handlers (`_onMousedown`, `_onMousemove`,
`_onMouseup`, `_applyMoveAction`, `_hover`, `_unhover`, `_reset`).

The external tree collaborator (`tree.getChildIds`, `tree.getParentId`,
`tree.getNodeIndex`, `tree.isLeaf`, `tree.getRootNodeId`) is modelled
abstractly as a record of functions; the DOM is modelled by the event
records carrying the data the handlers read from it (hit-tested node id,
mouse position, bounding rectangle).  Purely visual side effects with no
feedback into the logic (helper element position, drag-item class) are
not modelled; visual effects that the logic reads back or that the
claims mention (hover class, moving line, `tree.open`, `tree.move`) are
kept as explicit state (`hoverClass`, `lineVisible`, `opened`, `moves`).

`setTimeout` / `clearTimeout` are modelled by a list of pending timers
with numeric handles (`timers`, `timerHandle`, `nextTimerId`) and an
explicit `tick` step that advances wall-clock time and fires expired
timers, mirroring the one-shot semantics of the browser scheduler.
-/

namespace TuiTree

/-- Node ids are DOM element id strings in the source. -/
abbrev NodeId := String

/-- A mouse position, as produced by `util.getMousePos`. -/
structure Pos where
  x : Int
  y : Int
deriving Repr, DecidableEq

/-- A bounding rectangle, as produced by `getBoundingClientRect`. -/
structure RectPos where
  top : Int
  bottom : Int
  left : Int
  right : Int
deriving Repr, DecidableEq

/-- The `lineBoundary` option: margins for the top/bottom drop zones. -/
structure LineBoundary where
  top : Int
  bottom : Int
deriving Repr, DecidableEq

/-- The value of `this.movingLineType` when it is not `null`:
the boundary zone last drawn (`'top'` or `'bottom'`).  `Option MovingType`
models the nullable field, `none` standing for the `None`/middle zone. -/
inductive MovingType where
  | top
  | bottom
deriving Repr, DecidableEq

/-- The external tree collaborator: the subset of the `Tree` API the
draggable feature calls.  It is abstract data to this core, so it is a
record of functions, not a concrete inductive tree. -/
structure Tree where
  rootNodeId : NodeId
  getChildIds : NodeId → List NodeId
  getParentId : NodeId → NodeId
  getNodeIndex : NodeId → Int
  isLeaf : NodeId → Bool

/-- `_getBoundaryType(targetPos, mousePos)`: classify the pointer into a
boundary zone.  The source returns `'top'`, `'bottom'` or leaves `type`
undefined. -/
def getBoundaryType (lineBoundary : LineBoundary) (targetPos : RectPos)
    (mousePos : Pos) : Option MovingType :=
  if mousePos.y < targetPos.top + lineBoundary.top then
    some MovingType.top
  else if mousePos.y > targetPos.bottom - lineBoundary.bottom then
    some MovingType.bottom
  else
    none

/-- `_isContain(targetPos, mousePos)`: containment test for hover, with
the top/bottom shrunk by `lineBoundary` when sortable mode is on. -/
def isContain (isSortable : Bool) (lineBoundary : LineBoundary)
    (targetPos : RectPos) (mousePos : Pos) : Bool :=
  let top := if isSortable then targetPos.top + lineBoundary.top else targetPos.top
  let bottom := if isSortable then targetPos.bottom - lineBoundary.bottom else targetPos.bottom
  decide (targetPos.left < mousePos.x) && decide (targetPos.right > mousePos.x)
    && decide (top < mousePos.y) && decide (bottom > mousePos.y)

/-- `_getTargetNodeId(target)`: the hit-tested node id if there is one;
otherwise resolve against the root children, first child when the last
recorded moving-line type is `'top'`, last child otherwise.  `none`
models the `undefined` result on an empty child list. -/
def getTargetNodeId (tree : Tree) (movingLineType : Option MovingType)
    (hitNodeId : Option NodeId) : Option NodeId :=
  match hitNodeId with
  | some nodeId => some nodeId
  | none =>
      let childIds := tree.getChildIds tree.rootNodeId
      match movingLineType with
      | some MovingType.top => childIds.head?
      | _ => childIds.getLast?

/-- `_getIndexToInsert(nodeId)`: `-1` when no moving-line type is
recorded, otherwise the node's sibling index, plus one for `'bottom'`. -/
def getIndexToInsert (tree : Tree) (movingLineType : Option MovingType)
    (nodeId : NodeId) : Int :=
  match movingLineType with
  | none => -1
  | some movingType =>
      let index := tree.getNodeIndex nodeId
      if movingType = MovingType.bottom then index + 1 else index

/-- The `(newParentId, index)` pair handed to `tree.move` on mouseup. -/
structure MoveDecision where
  newParentId : NodeId
  index : Int
deriving Repr, DecidableEq

/-- The decision logic of `_onMouseup`: resolve the target node, compute
the insertion index, and pick the new parent (`targetId` itself for the
`-1` append sentinel, its parent otherwise).  `none` models the case
where `_getTargetNodeId` produced `undefined` (background drop over an
empty root). -/
def onMouseupDecision (tree : Tree) (movingLineType : Option MovingType)
    (hitNodeId : Option NodeId) : Option MoveDecision :=
  match getTargetNodeId tree movingLineType hitNodeId with
  | none => none
  | some targetId =>
      let index := getIndexToInsert tree movingLineType targetId
      let newParentId := if index = -1 then targetId else tree.getParentId targetId
      some { newParentId := newParentId, index := index }

/-- The configuration options the drag logic reads (visual-only options
such as class names and the helper template are not modelled). -/
structure Options where
  useHelper : Bool
  isSortable : Bool
  autoOpenDelay : Int
  lineBoundary : LineBoundary
deriving Repr, DecidableEq

/-- The relevant defaults from `defaultOptions` in the source. -/
def defaultOptions : Options :=
  { useHelper := true
    isSortable := false
    autoOpenDelay := 1500
    lineBoundary := { top := 4, bottom := 4 } }

/-- A pending `setTimeout` callback: its handle, the node it will
`tree.open`, and the remaining delay. -/
structure TimerEntry where
  id : Nat
  target : NodeId
  remaining : Int
deriving Repr, DecidableEq

/-- The mutable state of a `Draggable` instance, together with the
observable effect log (`opened` for `tree.open` calls fired by timers,
`moves` for `tree.move` calls).  `handlersAttached` models whether the
`mousemove`/`mouseup` handlers are currently registered on the tree. -/
structure DragState where
  tree : Tree
  useHelper : Bool
  isSortable : Bool
  autoOpenDelay : Int
  lineBoundary : LineBoundary
  currentNodeId : Option NodeId
  hoveredElement : Option NodeId
  movingLineType : Option MovingType
  timerHandle : Option Nat
  timers : List TimerEntry
  nextTimerId : Nat
  handlersAttached : Bool
  lineVisible : Bool
  hoverClass : List NodeId
  opened : List NodeId
  moves : List (Option NodeId × Option MoveDecision)

/-- `util.addClass`: a no-op when the class is already present. -/
def addClass (classList : List NodeId) (nodeId : NodeId) : List NodeId :=
  if classList.contains nodeId then classList else nodeId :: classList

namespace Draggable

/-- `init(tree, options)`: construct the instance state.  The source
performs no validation of the options; every field is stored as given. -/
def init (tree : Tree) (options : Options) : DragState :=
  { tree := tree
    useHelper := options.useHelper
    isSortable := options.isSortable
    autoOpenDelay := options.autoOpenDelay
    lineBoundary := options.lineBoundary
    currentNodeId := none
    hoveredElement := none
    movingLineType := none
    timerHandle := none
    timers := []
    nextTimerId := 0
    handlersAttached := false
    lineVisible := false
    hoverClass := []
    opened := []
    moves := [] }

/-- `_hover(nodeId)`: add the hover class to the hovered element and,
for a non-leaf node, arm a `setTimeout` for `autoOpenDelay` that will
`tree.open(nodeId)`.  The new handle overwrites `this.timer`. -/
def hover (state : DragState) (nodeId : NodeId) : DragState :=
  let state1 := { state with hoverClass := addClass state.hoverClass nodeId }
  if state1.tree.isLeaf nodeId then
    state1
  else
    { state1 with
        timers := state1.timers ++
          [{ id := state1.nextTimerId, target := nodeId, remaining := state1.autoOpenDelay }]
        timerHandle := some state1.nextTimerId
        nextTimerId := state1.nextTimerId + 1 }

/-- The hover-visual clearing shared by `_unhover` and `_reset`: remove
the hover class from the hovered element (a no-op when there is none)
and null the `hoveredElement` field. -/
def removeHoverClass (state : DragState) : DragState :=
  match state.hoveredElement with
  | some nodeId =>
      { state with
          hoverClass := state.hoverClass.filter (fun n => n != nodeId)
          hoveredElement := none }
  | none => { state with hoveredElement := none }

/-- `_unhover()`: `clearTimeout(this.timer)`, remove the hover class,
null `hoveredElement` and `timer`. -/
def unhover (state : DragState) : DragState :=
  let state1 :=
    match state.timerHandle with
    | some handle =>
        { state with
            timers := state.timers.filter (fun t => t.id != handle)
            timerHandle := none }
    | none => { state with timerHandle := none }
  removeHoverClass state1

/-- `_drawBoundaryLine(targetPos, boundaryType)`: show the line and
record the zone, or hide the line and clear the zone. -/
def drawBoundaryLine (state : DragState) (boundaryType : Option MovingType) : DragState :=
  match boundaryType with
  | some t => { state with lineVisible := true, movingLineType := some t }
  | none => { state with lineVisible := false, movingLineType := none }

/-- `_applyMoveAction(nodeId, mousePos)`: hover entry when nothing is
hovered and the pointer is contained; otherwise hover exit when the
sampled element lacks the hover class or the pointer left containment;
then, in sortable mode, classify the boundary zone and draw the line. -/
def applyMoveAction (state : DragState) (nodeId : NodeId) (targetPos : RectPos)
    (mousePos : Pos) : DragState :=
  let hasClass := state.hoverClass.contains nodeId
  let contain := isContain state.isSortable state.lineBoundary targetPos mousePos
  let state1 :=
    if state.hoveredElement.isNone && contain then
      hover { state with hoveredElement := some nodeId } nodeId
    else if !hasClass || (hasClass && !contain) then
      unhover state
    else
      state
  if state.isSortable then
    drawBoundaryLine state1 (getBoundaryType state.lineBoundary targetPos mousePos)
  else
    state1

/-- Drag-eligibility data of a `mousedown` event: the outcomes of
`util.isRightButton`, `_isNotDraggable` and the Editable-feature check,
plus the hit-tested node id. -/
structure MouseDownEvent where
  isRightButton : Bool
  isNotDraggable : Bool
  isEditing : Bool
  nodeId : NodeId
deriving Repr, DecidableEq

/-- `_onMousedown(event)`: ignore ineligible events; otherwise record
the dragged node id and attach the `mousemove`/`mouseup` handlers.
There is no guard against an already-active session. -/
def onMousedown (state : DragState) (event : MouseDownEvent) : DragState :=
  if event.isRightButton || event.isNotDraggable || event.isEditing then
    state
  else
    { state with currentNodeId := some event.nodeId, handlersAttached := true }

/-- Data of a `mousemove` event: the mouse position, the hit-tested node
id under the pointer (`none` over the background), and that node's
bounding rectangle. -/
structure MoveEvent where
  mousePos : Pos
  hitNodeId : Option NodeId
  rect : RectPos
deriving Repr, DecidableEq

/-- `_onMousemove(event)`: returns immediately when `useHelper` is off;
otherwise (after purely visual helper updates) applies the move action
when the pointer is over a node. -/
def onMousemove (state : DragState) (event : MoveEvent) : DragState :=
  if !state.useHelper then
    state
  else
    match event.hitNodeId with
    | some nodeId => applyMoveAction state nodeId event.rect event.mousePos
    | none => state

/-- `_reset()`: hide the moving line, clear the hover visual, clear the
session fields and detach the handlers.  Note that the source does not
clear `this.timer` here: pending timers survive. -/
def reset (state : DragState) : DragState :=
  let state1 := if state.isSortable then { state with lineVisible := false } else state
  let state2 := removeHoverClass state1
  { state2 with
      currentNodeId := none
      movingLineType := none
      handlersAttached := false }

/-- `_onMouseup(event)`: compute the move decision, hand it to
`tree.move` (recorded in `moves` with the dragged node id), and reset. -/
def onMouseup (state : DragState) (hitNodeId : Option NodeId) : DragState :=
  let decision := onMouseupDecision state.tree state.movingLineType hitNodeId
  reset { state with moves := state.moves ++ [(state.currentNodeId, decision)] }

/-- `tick elapsed`: advance wall-clock time; every pending timer whose
remaining delay is at most `elapsed` fires (`tree.open` on its target)
and is consumed; the rest have their remaining delay reduced. -/
def tick (state : DragState) (elapsed : Int) : DragState :=
  let fired := state.timers.filter (fun t => decide (t.remaining ≤ elapsed))
  let alive := (state.timers.filter (fun t => decide (elapsed < t.remaining))).map
      (fun t => { t with remaining := t.remaining - elapsed })
  { state with timers := alive, opened := state.opened ++ fired.map (fun t => t.target) }

/-- An external stimulus: a mouse event or the passage of time. -/
inductive Event where
  | down (event : MouseDownEvent)
  | move (event : MoveEvent)
  | up (hitNodeId : Option NodeId)
  | tick (elapsed : Int)

/-- Event dispatch: `mousedown` is always attached; `mousemove` and
`mouseup` reach the instance only while the handlers are attached;
timers fire regardless. -/
def dispatch (state : DragState) : Event → DragState
  | Event.down event => onMousedown state event
  | Event.move event => if state.handlersAttached then onMousemove state event else state
  | Event.up hitNodeId => if state.handlersAttached then onMouseup state hitNodeId else state
  | Event.tick elapsed => tick state elapsed

/-- Run a sequence of events from a state. -/
def run (state : DragState) (events : List Event) : DragState :=
  events.foldl dispatch state

end Draggable

/-- The hover invariant: every node currently bearing the hover class is
the (unique) hovered node.  Together with `hoveredElement` being an
`Option`, this says at most one node is hovered at any time. -/
def HoverInvariant (state : DragState) : Prop :=
  ∀ nodeId, nodeId ∈ state.hoverClass → state.hoveredElement = some nodeId

/-- A small concrete tree collaborator: root `"root"` with children
`["A", "B", "C"]`; `"B"` is collapsible (non-leaf), the rest are leaves. -/
def t0 : Tree :=
  { rootNodeId := "root"
    getChildIds := fun n => if n = "root" then ["A", "B", "C"] else []
    getParentId := fun _ => "root"
    getNodeIndex := fun n =>
      if n = "A" then 0 else if n = "B" then 1 else if n = "C" then 2 else -1
    isLeaf := fun n => n != "B" }

/-- A concrete node rectangle used by the concrete tests. -/
def r0 : RectPos := { top := 0, bottom := 20, left := 0, right := 100 }

/-- Concrete options: helper on, sortable on, default margins and delay. -/
def opts0 : Options :=
  { useHelper := true, isSortable := true, autoOpenDelay := 1500
    lineBoundary := { top := 4, bottom := 4 } }

/-- Concrete options with the helper disabled. -/
def optsNoHelper : Options :=
  { useHelper := false, isSortable := true, autoOpenDelay := 1500
    lineBoundary := { top := 4, bottom := 4 } }

/-- Concrete malformed options: negative top margin and negative delay. -/
def badOpts : Options :=
  { useHelper := true, isSortable := true, autoOpenDelay := -5
    lineBoundary := { top := -1, bottom := 4 } }

/-- An eligible left-button mousedown on node `"A"`. -/
def downA : Draggable.MouseDownEvent :=
  { isRightButton := false, isNotDraggable := false, isEditing := false, nodeId := "A" }

/-- An eligible left-button mousedown on node `"B"`. -/
def downB : Draggable.MouseDownEvent :=
  { isRightButton := false, isNotDraggable := false, isEditing := false, nodeId := "B" }

/-- A move sample over node `"B"`, inside its hover core. -/
def moveOverB : Draggable.MoveEvent :=
  { mousePos := { x := 50, y := 10 }, hitNodeId := some "B", rect := r0 }

/-- The event trace exercising the dangling auto-open timer: an eligible
mousedown on `"A"`, a move hovering the non-leaf node `"B"` (arming the
1500 ms auto-open timer), a mouseup over `"B"` before any time passes,
then 1500 ms of elapsed time. -/
def danglingTimerTrace : List Draggable.Event :=
  [Draggable.Event.down downA,
   Draggable.Event.move moveOverB,
   Draggable.Event.up (some "B"),
   Draggable.Event.tick 1500]

/-- Claim C1: dropping over a real node `x` during an active drag yields a
deterministic decision as a function of the recorded zone: zone `None`
gives `newParentId = x`, `index = -1` (append as child of `x`); zone
`Top` gives `newParentId = parentOf x` and `index` = the sibling index
of `x`; zone `Bottom` gives `newParentId = parentOf x` and `index` =
sibling index + 1.  The hypothesis states that `x` is a real node, so
its sibling index reported by the tree collaborator is non-negative. -/
theorem drop_on_real_node (tree : Tree) (movingLineType : Option MovingType) (x : NodeId)
    (hidx : 0 ≤ tree.getNodeIndex x) :
    onMouseupDecision tree movingLineType (some x) =
      some (match movingLineType with
        | none => { newParentId := x, index := -1 }
        | some MovingType.top =>
            { newParentId := tree.getParentId x, index := tree.getNodeIndex x }
        | some MovingType.bottom =>
            { newParentId := tree.getParentId x, index := tree.getNodeIndex x + 1 }) := by
  cases movingLineType with
  | none => rfl
  | some movingType =>
      cases movingType with
      | top =>
          simp only [onMouseupDecision, getTargetNodeId, getIndexToInsert]
          have hne : ¬ tree.getNodeIndex x = -1 := by omega
          simp [hne]
      | bottom =>
          simp only [onMouseupDecision, getTargetNodeId, getIndexToInsert]
          have hne : ¬ tree.getNodeIndex x + 1 = -1 := by omega
          simp [hne]

/-- Witness for C1: on the concrete tree `t0`, dropping on `"B"`
(sibling index 1) with zone `Top` targets parent `"root"` at index 1;
with zone `None` it appends as a child of `"B"`. -/
theorem drop_on_real_node_witness :
    onMouseupDecision t0 (some MovingType.top) (some "B") =
      some { newParentId := "root", index := 1 } ∧
    onMouseupDecision t0 none (some "B") = some { newParentId := "B", index := -1 } := by
  have h1 := drop_on_real_node t0 (some MovingType.top) "B" (by decide)
  have h2 := drop_on_real_node t0 none "B" (by decide)
  exact ⟨h1, h2⟩

/-- Claim C3: zone classification is total in the pointer `y` and the
rectangle with margins: `y < top + marginTop` gives `Top`; otherwise
`y > bottom - marginBottom` gives `Bottom`; otherwise `None`. -/
theorem boundary_type_total (lineBoundary : LineBoundary) (targetPos : RectPos)
    (mousePos : Pos) :
    (mousePos.y < targetPos.top + lineBoundary.top →
       getBoundaryType lineBoundary targetPos mousePos = some MovingType.top) ∧
    (¬ mousePos.y < targetPos.top + lineBoundary.top →
       mousePos.y > targetPos.bottom - lineBoundary.bottom →
       getBoundaryType lineBoundary targetPos mousePos = some MovingType.bottom) ∧
    (¬ mousePos.y < targetPos.top + lineBoundary.top →
       ¬ mousePos.y > targetPos.bottom - lineBoundary.bottom →
       getBoundaryType lineBoundary targetPos mousePos = none) := by
  refine ⟨fun h1 => ?_, fun h1 h2 => ?_, fun h1 h2 => ?_⟩
  · simp [getBoundaryType, h1]
  · simp [getBoundaryType, h1, h2]
  · simp [getBoundaryType, h1, h2]

/-- Witness for C3: on the rectangle `top = 0, bottom = 20` with both
margins 4, `y = rect.top` classifies `Top`, `y = rect.bottom` classifies
`Bottom`, and `y` at the midpoint classifies `None`. -/
theorem boundary_type_total_witness :
    getBoundaryType { top := 4, bottom := 4 } r0 { x := 50, y := 0 } = some MovingType.top ∧
    getBoundaryType { top := 4, bottom := 4 } r0 { x := 50, y := 20 } = some MovingType.bottom ∧
    getBoundaryType { top := 4, bottom := 4 } r0 { x := 50, y := 10 } = none := by
  refine ⟨(boundary_type_total _ _ _).1 (by decide),
          (boundary_type_total _ _ _).2.1 (by decide) (by decide),
          (boundary_type_total _ _ _).2.2 (by decide) (by decide)⟩

/-- Claim C4: the containment test holds iff `left < x < right` and, in
sortable mode, `top + marginTop < y < bottom - marginBottom`; when not
sortable the plain `top < y < bottom` applies.  In particular every
pointer strictly inside the rectangle core is contained. -/
theorem contain_spec (isSortable : Bool) (lineBoundary : LineBoundary)
    (targetPos : RectPos) (mousePos : Pos) :
    (isSortable = true →
       (isContain isSortable lineBoundary targetPos mousePos = true ↔
         targetPos.left < mousePos.x ∧ mousePos.x < targetPos.right ∧
           targetPos.top + lineBoundary.top < mousePos.y ∧
           mousePos.y < targetPos.bottom - lineBoundary.bottom)) ∧
    (isSortable = false →
       (isContain isSortable lineBoundary targetPos mousePos = true ↔
         targetPos.left < mousePos.x ∧ mousePos.x < targetPos.right ∧
           targetPos.top < mousePos.y ∧ mousePos.y < targetPos.bottom)) := by
  constructor <;> intro h <;> subst h <;> simp [isContain] <;> tauto

/-- Witness for C4: the point `(50, 10)` is strictly inside the core of
`r0` under margins 4/4, and the sortable containment test accepts it. -/
theorem contain_spec_witness :
    isContain true { top := 4, bottom := 4 } r0 { x := 50, y := 10 } = true := by
  exact ((contain_spec true { top := 4, bottom := 4 } r0 { x := 50, y := 10 }).1 rfl).mpr
    (by refine ⟨by decide, by decide, by decide, by decide⟩)

/-- Claim C5: a background drop (no hit node) with last-recorded zone
`Top` resolves to the first root-level child as effective hit node, and
its move decision equals the decision of dropping with zone `Top`
directly on that child; symmetrically, zone `Bottom` resolves to the
last root-level child. -/
theorem background_drop_sibling (tree : Tree) (firstChild lastChild : NodeId)
    (hfirst : (tree.getChildIds tree.rootNodeId).head? = some firstChild)
    (hlast : (tree.getChildIds tree.rootNodeId).getLast? = some lastChild) :
    getTargetNodeId tree (some MovingType.top) none = some firstChild ∧
    onMouseupDecision tree (some MovingType.top) none =
      onMouseupDecision tree (some MovingType.top) (some firstChild) ∧
    getTargetNodeId tree (some MovingType.bottom) none = some lastChild ∧
    onMouseupDecision tree (some MovingType.bottom) none =
      onMouseupDecision tree (some MovingType.bottom) (some lastChild) := by
  refine ⟨?_, ?_, ?_, ?_⟩ <;>
    simp [getTargetNodeId, onMouseupDecision, hfirst, hlast]

/-- Witness for C5: on `t0` with root children `["A", "B", "C"]`, a
background drop with zone `Top` gives the same decision as dropping with
zone `Top` directly on `"A"`. -/
theorem background_drop_sibling_witness :
    getTargetNodeId t0 (some MovingType.top) none = some "A" ∧
    onMouseupDecision t0 (some MovingType.top) none =
      onMouseupDecision t0 (some MovingType.top) (some "A") ∧
    getTargetNodeId t0 (some MovingType.bottom) none = some "C" ∧
    onMouseupDecision t0 (some MovingType.bottom) none =
      onMouseupDecision t0 (some MovingType.bottom) (some "C") :=
  background_drop_sibling t0 "A" "C" (by decide) (by decide)

/-- Claim C10: a background drop with no recorded zone targets the last
root-level child, and since the zone is `None` the decision appends the
dragged node as a child of that last root child with index `-1`; when
the root has no children the resolver names no target at all. -/
theorem background_drop_no_zone (tree : Tree) (lastChild : NodeId) :
    ((tree.getChildIds tree.rootNodeId).getLast? = some lastChild →
       getTargetNodeId tree none none = some lastChild ∧
       onMouseupDecision tree none none =
         some { newParentId := lastChild, index := -1 }) ∧
    (tree.getChildIds tree.rootNodeId = [] →
       getTargetNodeId tree none none = none ∧
       onMouseupDecision tree none none = none) := by
  constructor
  · intro hlast
    constructor
    · simp [getTargetNodeId, hlast]
    · simp [onMouseupDecision, getTargetNodeId, getIndexToInsert, hlast]
  · intro hnil
    constructor
    · simp [getTargetNodeId, hnil]
    · simp [onMouseupDecision, getTargetNodeId, hnil]

/-- Witness for C10: on `t0`, a background drop with no recorded zone
appends as a child of the last root child `"C"` with index `-1`. -/
theorem background_drop_no_zone_witness :
    getTargetNodeId t0 none none = some "C" ∧
    onMouseupDecision t0 none none = some { newParentId := "C", index := -1 } :=
  (background_drop_no_zone t0 "C").1 (by decide)

/-- Claim C2 (code bug): `_reset`, run on mouseup, clears the hover
visual but never calls `clearTimeout`, so the auto-open timer armed by
hovering the non-leaf node `"B"` survives the end of the drag session
and fires `tree.open("B")` afterwards.  Concretely: after
mousedown/hover/mouseup (no time elapsed) the session is over
(`currentNodeId` cleared, handlers detached, nothing opened) yet the
timer entry is still pending, and once 1500 ms elapse the expand side
effect fires — contradicting the claim that the timer never fires when
the session ends before `autoOpenDelayMs`. -/
theorem timer_fires_after_session_end :
    (Draggable.run (Draggable.init t0 opts0) (danglingTimerTrace.take 3)).currentNodeId
        = none ∧
    (Draggable.run (Draggable.init t0 opts0) (danglingTimerTrace.take 3)).handlersAttached
        = false ∧
    (Draggable.run (Draggable.init t0 opts0) (danglingTimerTrace.take 3)).opened = [] ∧
    (Draggable.run (Draggable.init t0 opts0) (danglingTimerTrace.take 3)).timers
        = [{ id := 0, target := "B", remaining := 1500 }] ∧
    (Draggable.run (Draggable.init t0 opts0) danglingTimerTrace).opened = ["B"] := by
  refine ⟨rfl, rfl, rfl, rfl, rfl⟩

/-- Counterexample to claim C6: `_onMousedown` has no guard against an
already-active session.  After an eligible mousedown on `"A"` the
session is active with `currentNodeId = "A"`; a second eligible
mousedown on `"B"` is not ignored — it overwrites the dragged node id,
so the existing session does not continue with its state unchanged. -/
theorem second_mousedown_not_ignored :
    (Draggable.onMousedown (Draggable.init t0 opts0) downA).currentNodeId = some "A" ∧
    (Draggable.onMousedown (Draggable.onMousedown (Draggable.init t0 opts0) downA)
        downB).currentNodeId = some "B" := by
  refine ⟨rfl, rfl⟩

/-- Claim C6 as amended: a pointer-down arriving while a session is
active is not rejected.  An eligible event replaces the session's
dragged node id with the new target (re-attaching the handlers), while
the hover, timer and boundary state carry over unchanged; only an
ineligible event (right button, rejected tag/class, editing) leaves the
state untouched. -/
theorem mousedown_replaces_session (state : DragState) (event : Draggable.MouseDownEvent)
    (a : NodeId) (hactive : state.currentNodeId = some a)
    (heligible : event.isRightButton = false ∧ event.isNotDraggable = false ∧
       event.isEditing = false) :
    (Draggable.onMousedown state event).currentNodeId = some event.nodeId ∧
    (Draggable.onMousedown state event).handlersAttached = true ∧
    (Draggable.onMousedown state event).hoveredElement = state.hoveredElement ∧
    (Draggable.onMousedown state event).timers = state.timers ∧
    (Draggable.onMousedown state event).timerHandle = state.timerHandle ∧
    (Draggable.onMousedown state event).hoverClass = state.hoverClass ∧
    (Draggable.onMousedown state event).movingLineType = state.movingLineType := by
  obtain ⟨h1, h2, h3⟩ := heligible
  simp [Draggable.onMousedown, h1, h2, h3]

/-- Witness for the amended C6: with the session active on `"A"`, an
eligible mousedown on `"B"` replaces the dragged node id and leaves the
hover and timer state unchanged. -/
theorem mousedown_replaces_session_witness :
    (Draggable.onMousedown (Draggable.onMousedown (Draggable.init t0 opts0) downA)
        downB).currentNodeId = some "B" ∧
    (Draggable.onMousedown (Draggable.onMousedown (Draggable.init t0 opts0) downA)
        downB).hoveredElement
      = (Draggable.onMousedown (Draggable.init t0 opts0) downA).hoveredElement := by
  have h := mousedown_replaces_session
    (Draggable.onMousedown (Draggable.init t0 opts0) downA) downB "A"
    (by decide) ⟨rfl, rfl, rfl⟩
  exact ⟨h.1, h.2.2.1⟩

/-- Counterexample to claim C8: construction does not fail on a
malformed configuration.  `init` with `marginTop = -1` and a negative
delay succeeds, the negative values survive into the state, and the
surviving margin changes later geometry: the pointer at `y = rect.top`
— classified `Top` under the default margin 4 — is classified `None`
under the surviving margin `-1`. -/
theorem init_accepts_negative_margin :
    (Draggable.init t0 badOpts).lineBoundary = { top := -1, bottom := 4 } ∧
    (Draggable.init t0 badOpts).autoOpenDelay = -5 ∧
    getBoundaryType (Draggable.init t0 badOpts).lineBoundary r0 { x := 50, y := 0 }
        = none ∧
    getBoundaryType { top := 4, bottom := 4 } r0 { x := 50, y := 0 }
        = some MovingType.top := by
  refine ⟨rfl, rfl, rfl, rfl⟩

/-- Claim C8 as amended: construction never fails and performs no
validation; whatever configuration is supplied — including negative
margins and a negative delay — is stored unchanged and is what the
later geometric computation consults. -/
theorem init_stores_config (tree : Tree) (options : Options) :
    (Draggable.init tree options).lineBoundary = options.lineBoundary ∧
    (Draggable.init tree options).autoOpenDelay = options.autoOpenDelay ∧
    (Draggable.init tree options).isSortable = options.isSortable ∧
    (Draggable.init tree options).useHelper = options.useHelper := by
  refine ⟨rfl, rfl, rfl, rfl⟩

/-- Counterexample to claim C9: delegation from the mousemove handler is
not independent of other configuration flags.  With `useHelper = true` a
move sample over the contained node `"B"` enters hover; with the same
trace under `useHelper = false` the handler returns early and no hover
processing happens. -/
theorem mousemove_depends_on_useHelper :
    (Draggable.dispatch (Draggable.run (Draggable.init t0 opts0)
        [Draggable.Event.down downA]) (Draggable.Event.move moveOverB)).hoveredElement
      = some "B" ∧
    (Draggable.dispatch (Draggable.run (Draggable.init t0 optsNoHelper)
        [Draggable.Event.down downA]) (Draggable.Event.move moveOverB)).hoveredElement
      = none := by
  refine ⟨rfl, rfl⟩

/-- Claim C9 as amended: while the handlers are attached, a mousemove
sample delegates to the hover engine and boundary resolver
(`_applyMoveAction`) only when `useHelper` is on and the sample hits a
node; with `useHelper` off the handler is a no-op, and before a session
starts (handlers not attached) the event is a no-op. -/
theorem mousemove_delegation (state : DragState) (event : Draggable.MoveEvent) :
    (state.useHelper = false → Draggable.onMousemove state event = state) ∧
    (∀ nodeId, state.useHelper = true → event.hitNodeId = some nodeId →
       Draggable.onMousemove state event
         = Draggable.applyMoveAction state nodeId event.rect event.mousePos) ∧
    (state.useHelper = true → event.hitNodeId = none →
       Draggable.onMousemove state event = state) ∧
    (state.handlersAttached = false →
       Draggable.dispatch state (Draggable.Event.move event) = state) := by
  refine ⟨fun h => ?_, fun nodeId h hhit => ?_, fun h hhit => ?_, fun h => ?_⟩
  · simp [Draggable.onMousemove, h]
  · simp [Draggable.onMousemove, h, hhit]
  · simp [Draggable.onMousemove, h, hhit]
  · simp [Draggable.dispatch, h]

/-- Witness for the amended C9: with `useHelper` off, the concrete move
sample over `"B"` leaves the state unchanged; before a session starts,
dispatching the same sample is a no-op. -/
theorem mousemove_delegation_witness :
    Draggable.onMousemove (Draggable.init t0 optsNoHelper) moveOverB
      = Draggable.init t0 optsNoHelper ∧
    Draggable.dispatch (Draggable.init t0 opts0) (Draggable.Event.move moveOverB)
      = Draggable.init t0 opts0 := by
  refine ⟨(mousemove_delegation (Draggable.init t0 optsNoHelper) moveOverB).1 rfl,
    (mousemove_delegation (Draggable.init t0 opts0) moveOverB).2.2.2 rfl⟩

/-- When nothing is hovered, the invariant forces the hover-class list
to be empty. -/
theorem hoverClass_nil_of_not_hovered (state : DragState) (hinv : HoverInvariant state)
    (h : state.hoveredElement = none) : state.hoverClass = [] := by
  cases hc : state.hoverClass with
  | nil => rfl
  | cons a l =>
      have ha := hinv a (by rw [hc]; exact List.mem_cons_self a l)
      rw [h] at ha
      simp at ha

/-- The hover invariant only depends on the `hoverClass` and
`hoveredElement` fields. -/
theorem hoverInvariant_of_eq (s t : DragState) (hc : t.hoverClass = s.hoverClass)
    (he : t.hoveredElement = s.hoveredElement) (hinv : HoverInvariant s) :
    HoverInvariant t := by
  intro n hn
  rw [hc] at hn
  rw [he]
  exact hinv n hn

/-- Clearing the hover visual nulls the hovered element. -/
theorem removeHoverClass_hoveredElement (state : DragState) :
    (Draggable.removeHoverClass state).hoveredElement = none := by
  unfold Draggable.removeHoverClass
  cases state.hoveredElement <;> rfl

/-- Under the invariant, clearing the hover visual empties the
hover-class list. -/
theorem removeHoverClass_hoverClass_nil (state : DragState) (hinv : HoverInvariant state) :
    (Draggable.removeHoverClass state).hoverClass = [] := by
  unfold Draggable.removeHoverClass
  cases h : state.hoveredElement with
  | none => simpa using hoverClass_nil_of_not_hovered state hinv h
  | some hv =>
      simp only
      apply List.filter_eq_nil_iff.mpr
      intro a ha
      have hav := hinv a ha
      rw [h] at hav
      have : hv = a := Option.some.inj hav
      subst this
      simp

/-- Clearing the hover visual preserves the invariant. -/
theorem removeHoverClass_inv (state : DragState) (hinv : HoverInvariant state) :
    HoverInvariant (Draggable.removeHoverClass state) := by
  intro n hn
  rw [removeHoverClass_hoverClass_nil state hinv] at hn
  simp at hn

/-- `_unhover` preserves the invariant. -/
theorem unhover_inv (state : DragState) (hinv : HoverInvariant state) :
    HoverInvariant (Draggable.unhover state) := by
  unfold Draggable.unhover
  cases h : state.timerHandle with
  | none => exact removeHoverClass_inv _ (fun n hn => hinv n hn)
  | some handle => exact removeHoverClass_inv _ (fun n hn => hinv n hn)

/-- `_unhover` nulls the hovered element. -/
theorem unhover_hoveredElement (state : DragState) :
    (Draggable.unhover state).hoveredElement = none := by
  unfold Draggable.unhover
  cases h : state.timerHandle <;> exact removeHoverClass_hoveredElement _

/-- `_hover` adds the hover class to the given node. -/
theorem hover_hoverClass (state : DragState) (nodeId : NodeId) :
    (Draggable.hover state nodeId).hoverClass = addClass state.hoverClass nodeId := by
  simp only [Draggable.hover]
  split <;> rfl

/-- `_hover` does not change the hovered element (the caller sets it). -/
theorem hover_hoveredElement (state : DragState) (nodeId : NodeId) :
    (Draggable.hover state nodeId).hoveredElement = state.hoveredElement := by
  simp only [Draggable.hover]
  split <;> rfl

/-- A hover entry from a non-hovered state establishes the invariant
again: only the entered node carries the class. -/
theorem hover_entry_inv (state : DragState) (nodeId : NodeId)
    (hinv : HoverInvariant state) (hnone : state.hoveredElement = none) :
    HoverInvariant (Draggable.hover { state with hoveredElement := some nodeId } nodeId) := by
  have hnil : state.hoverClass = [] := hoverClass_nil_of_not_hovered state hinv hnone
  intro n hn
  rw [hover_hoverClass] at hn
  rw [hover_hoveredElement]
  have : ({ state with hoveredElement := some nodeId } : DragState).hoverClass
      = state.hoverClass := rfl
  rw [this, hnil] at hn
  simp [addClass] at hn
  rw [hn]

/-- Drawing the boundary line does not touch the hover class. -/
theorem drawBoundaryLine_hoverClass (state : DragState) (b : Option MovingType) :
    (Draggable.drawBoundaryLine state b).hoverClass = state.hoverClass := by
  cases b <;> rfl

/-- Drawing the boundary line does not touch the hovered element. -/
theorem drawBoundaryLine_hoveredElement (state : DragState) (b : Option MovingType) :
    (Draggable.drawBoundaryLine state b).hoveredElement = state.hoveredElement := by
  cases b <;> rfl

/-- `_applyMoveAction` preserves the hover invariant. -/
theorem applyMoveAction_inv (state : DragState) (nodeId : NodeId) (targetPos : RectPos)
    (mousePos : Pos) (hinv : HoverInvariant state) :
    HoverInvariant (Draggable.applyMoveAction state nodeId targetPos mousePos) := by
  simp only [Draggable.applyMoveAction]
  have hinner : HoverInvariant
      (if state.hoveredElement.isNone &&
          isContain state.isSortable state.lineBoundary targetPos mousePos then
        Draggable.hover { state with hoveredElement := some nodeId } nodeId
      else if !state.hoverClass.contains nodeId ||
          (state.hoverClass.contains nodeId &&
            !isContain state.isSortable state.lineBoundary targetPos mousePos) then
        Draggable.unhover state
      else state) := by
    split
    · rename_i h
      rw [Bool.and_eq_true] at h
      exact hover_entry_inv state nodeId hinv (Option.isNone_iff_eq_none.mp h.1)
    · split
      · exact unhover_inv state hinv
      · exact hinv
  split
  · exact hoverInvariant_of_eq _ _ (drawBoundaryLine_hoverClass _ _)
      (drawBoundaryLine_hoveredElement _ _) hinner
  · exact hinner

/-- Per move sample, the hovered element is exited, kept, or — only when
nothing was hovered — entered on the sampled node. -/
theorem applyMoveAction_hoveredElement (state : DragState) (nodeId : NodeId)
    (targetPos : RectPos) (mousePos : Pos) :
    (Draggable.applyMoveAction state nodeId targetPos mousePos).hoveredElement = none ∨
    (Draggable.applyMoveAction state nodeId targetPos mousePos).hoveredElement
      = state.hoveredElement ∨
    (state.hoveredElement = none ∧
     (Draggable.applyMoveAction state nodeId targetPos mousePos).hoveredElement
       = some nodeId) := by
  simp only [Draggable.applyMoveAction]
  have step : ∀ s1 : DragState,
      (if state.isSortable then
        Draggable.drawBoundaryLine s1 (getBoundaryType state.lineBoundary targetPos mousePos)
      else s1).hoveredElement = s1.hoveredElement := by
    intro s1
    split
    · exact drawBoundaryLine_hoveredElement _ _
    · rfl
  rw [step]
  split
  · rename_i h
    rw [Bool.and_eq_true] at h
    right; right
    exact ⟨Option.isNone_iff_eq_none.mp h.1, by rw [hover_hoveredElement]⟩
  · split
    · left
      exact unhover_hoveredElement state
    · right; left; rfl

/-- `_reset` preserves the hover invariant. -/
theorem reset_inv (state : DragState) (hinv : HoverInvariant state) :
    HoverInvariant (Draggable.reset state) := by
  simp only [Draggable.reset]
  have h1 : HoverInvariant
      (if state.isSortable then { state with lineVisible := false } else state) := by
    apply hoverInvariant_of_eq state _ ?_ ?_ hinv
    · split <;> rfl
    · split <;> rfl
  exact hoverInvariant_of_eq _ _ rfl rfl (removeHoverClass_inv _ h1)

/-- Every dispatched event preserves the hover invariant. -/
theorem dispatch_inv (state : DragState) (event : Draggable.Event)
    (hinv : HoverInvariant state) :
    HoverInvariant (Draggable.dispatch state event) := by
  cases event with
  | down e =>
      simp only [Draggable.dispatch, Draggable.onMousedown]
      split
      · exact hinv
      · exact hoverInvariant_of_eq state _ rfl rfl hinv
  | move e =>
      simp only [Draggable.dispatch]
      split
      · simp only [Draggable.onMousemove]
        split
        · exact hinv
        · cases h : e.hitNodeId with
          | some nodeId => exact applyMoveAction_inv state nodeId e.rect e.mousePos hinv
          | none => exact hinv
      · exact hinv
  | up hit =>
      simp only [Draggable.dispatch]
      split
      · simp only [Draggable.onMouseup]
        apply reset_inv
        exact hoverInvariant_of_eq state _ rfl rfl hinv
      · exact hinv
  | tick d =>
      simp only [Draggable.dispatch, Draggable.tick]
      exact hoverInvariant_of_eq state _ rfl rfl hinv

/-- Claim C7: at most one node is hovered at any time — every event
preserves the invariant that only the hovered node carries the hover
class; a move sample never switches the hovered element directly from
one node to another (the old node is exited first); and the hovered
element is only entered, on the sampled contained node, when nothing
was hovered. -/
theorem hover_at_most_one (state : DragState) (hinv : HoverInvariant state) :
    (∀ event, HoverInvariant (Draggable.dispatch state event)) ∧
    (∀ nodeId targetPos mousePos a b,
        state.hoveredElement = some a →
        (Draggable.applyMoveAction state nodeId targetPos mousePos).hoveredElement = some b →
        a = b) ∧
    (∀ nodeId targetPos mousePos,
        (Draggable.applyMoveAction state nodeId targetPos mousePos).hoveredElement = none ∨
        (Draggable.applyMoveAction state nodeId targetPos mousePos).hoveredElement
          = state.hoveredElement ∨
        (state.hoveredElement = none ∧
         (Draggable.applyMoveAction state nodeId targetPos mousePos).hoveredElement
           = some nodeId)) := by
  refine ⟨fun event => dispatch_inv state event hinv, ?_, ?_⟩
  · intro nodeId targetPos mousePos a b ha hb
    rcases applyMoveAction_hoveredElement state nodeId targetPos mousePos with h | h | ⟨h, _⟩
    · rw [h] at hb; cases hb
    · rw [h, ha] at hb; exact Option.some.inj hb
    · rw [h] at ha; cases ha
  · intro nodeId targetPos mousePos
    exact applyMoveAction_hoveredElement state nodeId targetPos mousePos

/-- Witness for C7: the freshly constructed state satisfies the hover
invariant, and dispatching the concrete move sample over `"B"` keeps
it. -/
theorem hover_at_most_one_witness :
    HoverInvariant (Draggable.dispatch (Draggable.init t0 opts0)
      (Draggable.Event.move moveOverB)) := by
  have h := hover_at_most_one (Draggable.init t0 opts0)
    (by intro n hn; simp [Draggable.init] at hn)
  exact h.1 (Draggable.Event.move moveOverB)

end TuiTree
